import Mathlib

/-!
Verification of the slowmo virtual-time engine against its design
specification.

The definitions below are shallow embeddings of the library source
(`src/unnamed/part_002`, the `slowmo` library module) and of the Chrome
extension content script (`src/extension/content.js`).  JavaScript numbers
are modelled as rationals (`ℚ`); the sentinel `Infinity` speed of the
extension variant is modelled explicitly where the code branches on it.
-/

namespace Slowmo

/-! ### Virtual clock state (module-level variables of the library)

The library keeps five module-level variables: `currentSpeed`, `isPaused`,
`virtualTime`, `lastRealTime`, `pauseTime`.
-/

structure ClockState where
  currentSpeed : ℚ
  isPaused : Bool
  virtualTime : ℚ
  lastRealTime : ℚ
  pauseTime : ℚ
deriving Repr, DecidableEq

/-- Embedding of `getVirtualTime(realTime)` (library): returns `pauseTime`
while paused, otherwise `virtualTime + (realTime - lastRealTime) * currentSpeed`. -/
def getVirtualTime (s : ClockState) (realTime : ℚ) : ℚ :=
  if s.isPaused then s.pauseTime
  else s.virtualTime + (realTime - s.lastRealTime) * s.currentSpeed

/-- Embedding of the clock initialisation performed by `install()`:
`lastRealTime = originalPerformanceNow(); virtualTime = lastRealTime`,
with the module-initial values `currentSpeed = 1`, `isPaused = false`,
`pauseTime = 0`. -/
def installClock (realNow : ℚ) : ClockState :=
  { currentSpeed := 1, isPaused := false,
    virtualTime := realNow, lastRealTime := realNow, pauseTime := 0 }

/-- Embedding of the clock part of `setSpeed(speed)`: checkpoint the
virtual time under the old parameters, reset `lastRealTime`, install the
new speed, set `isPaused = (speed === 0)` and, when pausing, record
`pauseTime = virtualTime`. -/
def setSpeedClock (s : ClockState) (speed realNow : ℚ) : ClockState :=
  let vt := getVirtualTime s realNow
  let s1 : ClockState :=
    { currentSpeed := speed, isPaused := decide (speed = 0),
      virtualTime := vt, lastRealTime := realNow, pauseTime := s.pauseTime }
  if speed = 0 then { s1 with pauseTime := vt } else s1

/-- Embedding of `pause()`, which is `setSpeed(0)`. -/
def pauseClock (s : ClockState) (realNow : ℚ) : ClockState :=
  setSpeedClock s 0 realNow

/-- Embedding of `play()`: when paused, first set `lastRealTime = realNow`
and clear `isPaused`; then call `setSpeed(currentSpeed || 1)` (the JS
`||` falls back to `1` exactly when `currentSpeed` is `0`). -/
def playClock (s : ClockState) (realNow : ℚ) : ClockState :=
  let s1 := if s.isPaused then
    { s with lastRealTime := realNow, isPaused := false } else s
  setSpeedClock s1 (if s1.currentSpeed = 0 then 1 else s1.currentSpeed) realNow

/-- Embedding of `reset()`, which is `setSpeed(1)`. -/
def resetClock (s : ClockState) (realNow : ℚ) : ClockState :=
  setSpeedClock s 1 realNow

/-- Embedding of `getSpeed()`: returns `currentSpeed`. -/
def getSpeedClock (s : ClockState) : ℚ :=
  s.currentSpeed

/-- The public speed/pause-changing entry points of the library. -/
inductive ClockOp where
  | set (speed : ℚ)
  | pauseOp
  | playOp
  | resetOp
deriving Repr, DecidableEq

/-- Apply one public speed/pause-changing call at real time `realNow`. -/
def applyClockOp (op : ClockOp) (realNow : ℚ) (s : ClockState) : ClockState :=
  match op with
  | .set speed => setSpeedClock s speed realNow
  | .pauseOp => pauseClock s realNow
  | .playOp => playClock s realNow
  | .resetOp => resetClock s realNow

/-- Run a sequence of public calls, each tagged with its real time. -/
def runClock (s0 : ClockState) (steps : List (ClockOp × ℚ)) : ClockState :=
  steps.foldl (fun s st => applyClockOp st.1 st.2 s) s0

/-- States in which the pause checkpoint is consistent: while paused,
`pauseTime` coincides with the checkpointed `virtualTime`.  Every state
reachable from `installClock` satisfies this. -/
def ClockInv (s : ClockState) : Prop :=
  s.isPaused = true → s.pauseTime = s.virtualTime

/-! ### Module state and installation (C7, C8)

The library module also keeps `isInstalled` and the captured native
references (`originalRAF`, `originalPerformanceNow`).  In a realm without
`window`, `install()` returns before capturing anything, so
`originalPerformanceNow` stays `undefined`; calling it throws a
`TypeError`, which we model with `Except`.
-/

structure ModState where
  clock : ClockState
  isInstalled : Bool
  hasOrigNow : Bool
deriving Repr, DecidableEq

/-- The module-initial state: `currentSpeed = 1`, `isPaused = false`,
`virtualTime = lastRealTime = pauseTime = 0`, not installed, native
references not captured. -/
def freshMod : ModState :=
  { clock := ⟨1, false, 0, 0, 0⟩, isInstalled := false, hasOrigNow := false }

/-- The error raised when the never-captured `originalPerformanceNow`
is invoked. -/
def jsTypeError : String := "TypeError: originalPerformanceNow is not a function"

/-- Embedding of `install()`: `if (isInstalled || typeof window === 'undefined') return;`
then capture the natives and initialise the clock from the real time. -/
def installMod (hasWindow : Bool) (realNow : ℚ) (st : ModState) : ModState :=
  if st.isInstalled || !hasWindow then st
  else
    { clock := { st.clock with lastRealTime := realNow, virtualTime := realNow },
      isInstalled := true, hasOrigNow := true }

/-- Embedding of `setSpeed(speed)` at module level: run `install()` if not
installed, then read `originalPerformanceNow()` — which throws when it was
never captured — and checkpoint the clock. -/
def setSpeedMod (hasWindow : Bool) (realNow : ℚ) (st : ModState) (speed : ℚ) :
    Except String ModState :=
  let st1 := if !st.isInstalled then installMod hasWindow realNow st else st
  if st1.hasOrigNow then
    .ok { st1 with clock := setSpeedClock st1.clock speed realNow }
  else .error jsTypeError

/-- Embedding of `pause()` at module level. -/
def pauseMod (hasWindow : Bool) (realNow : ℚ) (st : ModState) :
    Except String ModState :=
  setSpeedMod hasWindow realNow st 0

/-- Embedding of `play()` at module level: the paused branch itself reads
`originalPerformanceNow()` before clearing the pause flag. -/
def playMod (hasWindow : Bool) (realNow : ℚ) (st : ModState) :
    Except String ModState :=
  if st.clock.isPaused then
    if st.hasOrigNow then
      let st1 : ModState :=
        { st with clock :=
            { st.clock with lastRealTime := realNow, isPaused := false } }
      setSpeedMod hasWindow realNow st1
        (if st1.clock.currentSpeed = 0 then 1 else st1.clock.currentSpeed)
    else .error jsTypeError
  else
    setSpeedMod hasWindow realNow st
      (if st.clock.currentSpeed = 0 then 1 else st.clock.currentSpeed)

/-- Embedding of `reset()` at module level. -/
def resetMod (hasWindow : Bool) (realNow : ℚ) (st : ModState) :
    Except String ModState :=
  setSpeedMod hasWindow realNow st 1

/-- Embedding of `getSpeed()`, which only reads `currentSpeed`. -/
def getSpeedMod (st : ModState) : ℚ :=
  st.clock.currentSpeed

/-- The ambient time-related globals a full installation of the spec's
Time-Source Patch Set would replace. -/
inductive TimeGlobal where
  | rafWindow
  | rafGlobalThis
  | performanceNow
  | setTimeoutGlobal
  | setIntervalGlobal
  | dateNow
deriving Repr, DecidableEq

/-- Which ambient globals `install()` actually reassigns, read off the
body of `install()` in the library: `window.requestAnimationFrame`,
`globalThis.requestAnimationFrame` and `performance.now` are replaced;
`setTimeout`, `setInterval` and `Date.now` are never touched. -/
def installPatches : TimeGlobal → Bool
  | .rafWindow => true
  | .rafGlobalThis => true
  | .performanceNow => true
  | .setTimeoutGlobal => false
  | .setIntervalGlobal => false
  | .dateNow => false

/-! ### Entity rate tracker (library `updateWebAnimations` / `updateMediaElements`)

Each reconciliation pass visits every live animation and media element.
We embed the per-entity body of the loop: the element's observable state,
the `WeakMap` entry (present or not), and a `Bool` recording whether the
pass performed a `playbackRate` write on this entity.
-/

inductive PlayState where
  | running
  | paused
  | finished
  | idle
deriving Repr, DecidableEq

structure AnimState where
  playbackRate : ℚ
  playState : PlayState
  excluded : Bool
deriving Repr, DecidableEq

structure TrackedAnim where
  original : ℚ
  applied : ℚ
deriving Repr, DecidableEq

/-- Embedding of the play/pause reconciliation tail for animations:
while the engine is paused a running animation is paused; while unpaused
any paused animation is resumed (there is no tracking of who paused it). -/
def animPausePlay (gPaused : Bool) (a : AnimState) : AnimState :=
  if gPaused then
    if a.playState = PlayState.running then { a with playState := PlayState.paused } else a
  else
    if a.playState = PlayState.paused then { a with playState := PlayState.running } else a

/-- Embedding of the per-animation body of `updateWebAnimations` (library):
skip excluded targets; on first sight record `original = playbackRate` and
write `original * currentSpeed`; otherwise re-infer `original` when the
current rate differs from the last applied value, then write
`original * currentSpeed` only if different; finally reconcile play/pause. -/
def updateAnimation (speed : ℚ) (gPaused : Bool) (a : AnimState)
    (tr? : Option TrackedAnim) : AnimState × Option TrackedAnim × Bool :=
  if a.excluded then (a, tr?, false)
  else
    match tr? with
    | none =>
        let original := a.playbackRate
        let applied := original * speed
        (animPausePlay gPaused { a with playbackRate := applied },
          some { original := original, applied := applied }, true)
    | some tr =>
        let tr1 := if a.playbackRate ≠ tr.applied
          then { tr with original := a.playbackRate } else tr
        let newApplied := tr1.original * speed
        if a.playbackRate ≠ newApplied then
          (animPausePlay gPaused { a with playbackRate := newApplied },
            some { tr1 with applied := newApplied }, true)
        else
          (animPausePlay gPaused a, some tr1, false)

structure MediaState where
  playbackRate : ℚ
  paused : Bool
  excluded : Bool
deriving Repr, DecidableEq

structure TrackedMedia where
  original : ℚ
  applied : ℚ
  wasPaused : Bool
deriving Repr, DecidableEq

/-- Embedding of the common tail of the per-media body (library): while the
engine is paused, pause a playing element and remember `wasPaused`; while
unpaused, resume only an element the engine itself paused, then write
`original * currentSpeed` (unclamped in the library) only if different. -/
def updateMediaTail (speed : ℚ) (gPaused : Bool) (m : MediaState)
    (tr : TrackedMedia) : MediaState × TrackedMedia × Bool :=
  if gPaused then
    if ¬m.paused ∧ ¬tr.wasPaused then
      ({ m with paused := true }, { tr with wasPaused := true }, false)
    else (m, tr, false)
  else
    let mp := if tr.wasPaused then
      ({ m with paused := false }, { tr with wasPaused := false }) else (m, tr)
    let newApplied := mp.2.original * speed
    if mp.1.playbackRate ≠ newApplied then
      ({ mp.1 with playbackRate := newApplied },
        { mp.2 with applied := newApplied }, true)
    else (mp.1, mp.2, false)

/-- Embedding of the per-media body of `updateMediaElements` (library):
skip excluded elements; create the entry on first sight; otherwise
re-infer `original` when the current rate differs from the last applied
value — but, for media, only while the engine is unpaused
(`!== tracked.applied && !isPaused`); then run the common tail. -/
def updateMediaElement (speed : ℚ) (gPaused : Bool) (m : MediaState)
    (tr? : Option TrackedMedia) : MediaState × Option TrackedMedia × Bool :=
  if m.excluded then (m, tr?, false)
  else
    let tr := match tr? with
      | none =>
          { original := m.playbackRate, applied := m.playbackRate * speed,
            wasPaused := false : TrackedMedia }
      | some tr =>
          if m.playbackRate ≠ tr.applied ∧ gPaused = false
            then { tr with original := m.playbackRate } else tr
    let r := updateMediaTail speed gPaused m tr
    (r.1, some r.2.1, r.2.2)

/-- Clamp applied by the extension dial content script before writing a
media playback rate: `Math.min(16, Math.max(0.0625, x))`. -/
def clampMediaRate (x : ℚ) : ℚ := min 16 (max (1/16) x)

/-- Embedding of the common tail of the per-media body in the extension
dial content script (`src/extension/content.js`, first script): identical
to the library tail except that the written value is clamped to the
platform-supported range before the write-if-different comparison. -/
def updateMediaExtTail (speed : ℚ) (gPaused : Bool) (m : MediaState)
    (tr : TrackedMedia) : MediaState × TrackedMedia × Bool :=
  if gPaused then
    if ¬m.paused ∧ ¬tr.wasPaused then
      ({ m with paused := true }, { tr with wasPaused := true }, false)
    else (m, tr, false)
  else
    let mp := if tr.wasPaused then
      ({ m with paused := false }, { tr with wasPaused := false }) else (m, tr)
    let newApplied := clampMediaRate (mp.2.original * speed)
    if mp.1.playbackRate ≠ newApplied then
      ({ mp.1 with playbackRate := newApplied },
        { mp.2 with applied := newApplied }, true)
    else (mp.1, mp.2, false)

/-- Embedding of the per-media body of the extension dial content script
for a finite multiplier (its `Infinity` branch returns earlier and is
modelled separately below). -/
def updateMediaExtElement (speed : ℚ) (gPaused : Bool) (m : MediaState)
    (tr? : Option TrackedMedia) : MediaState × Option TrackedMedia × Bool :=
  if m.excluded then (m, tr?, false)
  else
    let tr := match tr? with
      | none =>
          { original := m.playbackRate, applied := m.playbackRate * speed,
            wasPaused := false : TrackedMedia }
      | some tr =>
          if m.playbackRate ≠ tr.applied ∧ gPaused = false
            then { tr with original := m.playbackRate } else tr
    let r := updateMediaExtTail speed gPaused m tr
    (r.1, some r.2.1, r.2.2)

/-! ### Infinity-speed completion path (extension content script, C10) -/

/-- The value of `media.duration`: `NaN` before metadata loads, `Infinity`
for unbounded streams, or a finite number of seconds. -/
inductive MediaDuration where
  | nan
  | infinite
  | fin (d : ℚ)
deriving Repr, DecidableEq

structure MediaInfState where
  currentTime : ℚ
  duration : MediaDuration
  paused : Bool
  excluded : Bool
deriving Repr, DecidableEq

/-- Embedding of the `currentSpeed === Infinity` branch of the extension's
`updateMediaElements`: `if (media.duration && isFinite(media.duration))`
— duration truthy (non-`NaN`, non-zero) and finite — seek to the end and
pause; otherwise leave the element untouched. -/
def updateMediaInfinite (m : MediaInfState) : MediaInfState :=
  if m.excluded then m
  else
    match m.duration with
    | MediaDuration.fin d =>
        if d ≠ 0 then { m with currentTime := d, paused := true } else m
    | _ => m

structure AnimInfState where
  finished : Bool
  canFinish : Bool
  playbackRate : ℚ
  excluded : Bool
deriving Repr, DecidableEq

/-- Embedding of the `currentSpeed === Infinity` branch of the extension's
`updateWebAnimations`: `try { anim.finish() } catch { anim.playbackRate = 16 }`
— the field `canFinish` records whether `finish()` succeeds (it throws for
animations with infinite iterations), and the failure is contained in the
per-entity step. -/
def updateAnimInfinite (a : AnimInfState) : AnimInfState :=
  if a.excluded then a
  else if a.canFinish then { a with finished := true }
  else { a with playbackRate := 16 }

/-! ### Clock lemmas and the continuity theorem (C1, C2, C5) -/

theorem clockInv_install (t0 : ℚ) : ClockInv (installClock t0) := by
  intro h
  simp [installClock] at h

theorem getVirtualTime_setSpeedClock_self (s : ClockState) (speed t : ℚ) :
    getVirtualTime (setSpeedClock s speed t) t = getVirtualTime s t := by
  by_cases h : speed = 0 <;>
    simp [setSpeedClock, getVirtualTime, h]

theorem clockInv_setSpeedClock (s : ClockState) (speed t : ℚ) :
    ClockInv (setSpeedClock s speed t) := by
  intro h
  by_cases h0 : speed = 0 <;> simp [setSpeedClock, h0] at h ⊢

theorem clockInv_applyClockOp (op : ClockOp) (t : ℚ) (s : ClockState) :
    ClockInv (applyClockOp op t s) := by
  cases op <;>
    simp only [applyClockOp, pauseClock, playClock, resetClock] <;>
    apply clockInv_setSpeedClock

theorem getVirtualTime_applyClockOp_self (op : ClockOp) (t : ℚ)
    (s : ClockState) (hinv : ClockInv s) :
    getVirtualTime (applyClockOp op t s) t = getVirtualTime s t := by
  cases op with
  | set speed => exact getVirtualTime_setSpeedClock_self s speed t
  | pauseOp => exact getVirtualTime_setSpeedClock_self s 0 t
  | resetOp => exact getVirtualTime_setSpeedClock_self s 1 t
  | playOp =>
      by_cases hp : s.isPaused
      · have hpt : s.pauseTime = s.virtualTime := hinv hp
        simp only [applyClockOp, playClock, hp, if_true]
        rw [getVirtualTime_setSpeedClock_self]
        simp [getVirtualTime, hp, hpt]
      · simp only [applyClockOp, playClock, hp, Bool.false_eq_true, if_false]
        rw [getVirtualTime_setSpeedClock_self]

theorem clockInv_runClock (s0 : ClockState) (steps : List (ClockOp × ℚ))
    (h0 : ClockInv s0) : ClockInv (runClock s0 steps) := by
  induction steps generalizing s0 with
  | nil => exact h0
  | cons st rest ih =>
      exact ih (applyClockOp st.1 st.2 s0) (clockInv_applyClockOp st.1 st.2 s0)

theorem runClock_append (s0 : ClockState) (l1 l2 : List (ClockOp × ℚ)) :
    runClock s0 (l1 ++ l2) = runClock (runClock s0 l1) l2 := by
  simp [runClock, List.foldl_append]

/-- C1.  Continuity of the virtual clock: for any sequence of public
speed/pause calls (`setSpeed`, `pause`, `play`, `reset`) issued at real
times `t0 < … < tn` after installation, the value of `now()` immediately
after the `i`-th call, read at the real instant of that call, equals the
value `now()` produced under the previous parameters at that same instant:
the checkpoint in `setSpeed` evaluates the old clock before installing the
new speed, so there is no jump at the instant of change. -/
theorem setSpeed_continuous_at_each_change
    (steps : List (ClockOp × ℚ)) (t0 : ℚ) (i : ℕ) (h : i < steps.length) :
    getVirtualTime (runClock (installClock t0) (steps.take (i + 1)))
        (steps.get ⟨i, h⟩).2
      = getVirtualTime (runClock (installClock t0) (steps.take i))
        (steps.get ⟨i, h⟩).2 := by
  have htake : steps.take (i + 1) = steps.take i ++ [steps.get ⟨i, h⟩] := by
    rw [List.take_succ, List.getElem?_eq_getElem h]
    simp [List.get_eq_getElem]
  rw [htake, runClock_append]
  have hinv : ClockInv (runClock (installClock t0) (steps.take i)) :=
    clockInv_runClock _ _ (clockInv_install t0)
  simpa [runClock] using
    getVirtualTime_applyClockOp_self (steps.get ⟨i, h⟩).1 (steps.get ⟨i, h⟩).2
      (runClock (installClock t0) (steps.take i)) hinv

theorem setSpeed_continuous_at_each_change_witness :
    getVirtualTime (runClock (installClock 0) [(ClockOp.set 2, 5)]) 5
      = getVirtualTime (installClock 0) 5 := by
  have h := setSpeed_continuous_at_each_change [(ClockOp.set 2, 5)] 0 0
    (by decide)
  simpa [runClock] using h

/-- C2.  The virtual clock value at any real timestamp is `pauseTime`
(the frozen virtual time) while paused, and otherwise
`virtualTime + (realNow - lastRealTime) * currentSpeed`; consequently any
two reads while paused are equal regardless of the real gap, and over a
real interval `d` at a constant unpaused multiplier the virtual elapsed
time is `currentSpeed * d`. -/
theorem virtual_clock_formula
    (p : ClockState) (hp : p.isPaused = true)
    (u : ClockState) (hu : u.isPaused = false) (t1 t2 d : ℚ) :
    getVirtualTime p t1 = getVirtualTime p t2
      ∧ getVirtualTime p t1 = p.pauseTime
      ∧ getVirtualTime u t1
          = u.virtualTime + (t1 - u.lastRealTime) * u.currentSpeed
      ∧ getVirtualTime u (t1 + d) - getVirtualTime u t1
          = u.currentSpeed * d := by
  refine ⟨?_, ?_, ?_, ?_⟩
  · simp [getVirtualTime, hp]
  · simp [getVirtualTime, hp]
  · simp [getVirtualTime, hu]
  · simp only [getVirtualTime, hu, Bool.false_eq_true, if_false]
    ring

theorem virtual_clock_formula_witness :
    getVirtualTime ⟨0, true, 5, 3, 7⟩ 10 = getVirtualTime ⟨0, true, 5, 3, 7⟩ 99
      ∧ getVirtualTime ⟨0, true, 5, 3, 7⟩ 10 = (7 : ℚ)
      ∧ getVirtualTime ⟨2, false, 5, 3, 0⟩ 10 = 5 + (10 - 3) * 2
      ∧ getVirtualTime ⟨2, false, 5, 3, 0⟩ (10 + 4)
          - getVirtualTime ⟨2, false, 5, 3, 0⟩ 10 = 2 * 4 := by
  simpa using virtual_clock_formula ⟨0, true, 5, 3, 7⟩ rfl
    ⟨2, false, 5, 3, 0⟩ rfl 10 99 4

/-- C5, counterexample.  The claim states that after `setSpeed(s)` followed
by `pause()`, calling `play()` makes `getSpeed()` return `s` again for any
`s > 0`.  At `s = 2` the code returns `1`: `pause()` runs `setSpeed(0)`,
which overwrites `currentSpeed` with `0`, and `play()` resumes at
`currentSpeed || 1 = 1`. -/
theorem play_does_not_restore_prepause_speed :
    ¬ (getSpeedClock
        (playClock (pauseClock (setSpeedClock (installClock 0) 2 1) 2) 3)
          = 2) := by
  decide

/-- C5, amended.  `play()` resumes at `currentSpeed` when it is non-zero
and at `1` otherwise; since `pause()` sets the multiplier to `0`, a
`play()` that follows `setSpeed(s); pause()` always resumes at `1`
(the repository's unit test records exactly this behaviour). -/
theorem play_resumes_current_or_one
    (s s0 : ClockState) (sp t t1 t2 t3 : ℚ) :
    getSpeedClock (playClock s t)
        = (if s.currentSpeed = 0 then 1 else s.currentSpeed)
      ∧ getSpeedClock (playClock (pauseClock (setSpeedClock s0 sp t1) t2) t3)
          = 1 := by
  constructor
  · by_cases hp : s.isPaused <;>
      by_cases h0 : s.currentSpeed = 0 <;>
        simp [playClock, setSpeedClock, getSpeedClock, hp, h0]
  · simp [playClock, pauseClock, setSpeedClock, getSpeedClock]

/-! ### Installation theorems (C7, C8) -/

/-- C7, counterexample.  The claim states that in a realm without `window`
every public entry point returns without throwing.  Evaluating `setSpeed(2)`
in the fresh windowless module state shows it throws a `TypeError`:
`install()` returned without capturing `performance.now`, and `setSpeed`
then invokes the undefined `originalPerformanceNow`. -/
theorem setSpeed_throws_in_windowless_realm :
    setSpeedMod false 0 freshMod 2 = Except.error jsTypeError := by
  rfl

/-- C7, amended.  In a realm without `window`, `install()` is a no-op and
`getSpeed()` is inert, but `setSpeed`, `pause`, `play` and `reset` are not
inert: whenever the native clock reader was never captured they throw a
`TypeError` instead of returning silently. -/
theorem windowless_install_noop_but_api_throws
    (st : ModState) (sp t : ℚ) (h : st.hasOrigNow = false) :
    installMod false t st = st
      ∧ setSpeedMod false t st sp = Except.error jsTypeError
      ∧ pauseMod false t st = Except.error jsTypeError
      ∧ playMod false t st = Except.error jsTypeError
      ∧ resetMod false t st = Except.error jsTypeError
      ∧ getSpeedMod st = st.clock.currentSpeed := by
  have hinst : installMod false t st = st := by
    simp [installMod]
  refine ⟨hinst, ?_, ?_, ?_, ?_, rfl⟩
  · by_cases hi : st.isInstalled <;> simp [setSpeedMod, hinst, hi, h]
  · by_cases hi : st.isInstalled <;>
      simp [pauseMod, setSpeedMod, hinst, hi, h]
  · by_cases hp : st.clock.isPaused <;>
      by_cases hi : st.isInstalled <;>
        simp [playMod, setSpeedMod, hinst, installMod, hp, hi, h]
  · by_cases hi : st.isInstalled <;>
      simp [resetMod, setSpeedMod, hinst, hi, h]

theorem windowless_install_noop_but_api_throws_witness :
    installMod false 0 freshMod = freshMod
      ∧ setSpeedMod false 0 freshMod 2 = Except.error jsTypeError
      ∧ pauseMod false 0 freshMod = Except.error jsTypeError
      ∧ playMod false 0 freshMod = Except.error jsTypeError
      ∧ resetMod false 0 freshMod = Except.error jsTypeError
      ∧ getSpeedMod freshMod = freshMod.clock.currentSpeed :=
  windowless_install_noop_but_api_throws freshMod 2 0 rfl

/-- C8.  Evaluation of the code at the failing point: `install()` leaves
the delay-based schedulers (`setTimeout`, `setInterval`) and the wall
clock (`Date.now`) native while replacing the frame scheduler and the
monotonic clock, so no requested delay is ever divided by an effective
speed — contradicting the repository's own README ("setTimeout/setInterval:
Scaled delays") and the unit-test file written for that patching. -/
theorem install_leaves_delay_schedulers_native :
    installPatches TimeGlobal.setTimeoutGlobal = false
      ∧ installPatches TimeGlobal.setIntervalGlobal = false
      ∧ installPatches TimeGlobal.dateNow = false
      ∧ installPatches TimeGlobal.rafWindow = true
      ∧ installPatches TimeGlobal.rafGlobalThis = true
      ∧ installPatches TimeGlobal.performanceNow = true := by
  decide

/-! ### Characterisations of the per-entity reconciliation steps -/

theorem animPausePlay_playbackRate (g : Bool) (a : AnimState) :
    (animPausePlay g a).playbackRate = a.playbackRate := by
  unfold animPausePlay
  split_ifs <;> rfl

theorem animPausePlay_excluded (g : Bool) (a : AnimState) :
    (animPausePlay g a).excluded = a.excluded := by
  unfold animPausePlay
  split_ifs <;> rfl

theorem updateAnimation_excluded_skip (speed : ℚ) (g : Bool) (a : AnimState)
    (tr? : Option TrackedAnim) (hex : a.excluded = true) :
    updateAnimation speed g a tr? = (a, tr?, false) := by
  simp [updateAnimation, hex]

theorem updateAnimation_none_eq (speed : ℚ) (g : Bool) (a : AnimState)
    (hex : a.excluded = false) :
    updateAnimation speed g a none
      = (animPausePlay g { a with playbackRate := a.playbackRate * speed },
          some ⟨a.playbackRate, a.playbackRate * speed⟩, true) := by
  simp [updateAnimation, hex]

theorem updateAnimation_some_eq (speed : ℚ) (g : Bool) (a : AnimState)
    (tr : TrackedAnim) (hex : a.excluded = false) :
    updateAnimation speed g a (some tr)
      = if a.playbackRate
            ≠ (if a.playbackRate ≠ tr.applied then a.playbackRate
                else tr.original) * speed
        then
          (animPausePlay g { a with playbackRate :=
              (if a.playbackRate ≠ tr.applied then a.playbackRate
                else tr.original) * speed },
            some ⟨if a.playbackRate ≠ tr.applied then a.playbackRate
                else tr.original,
              (if a.playbackRate ≠ tr.applied then a.playbackRate
                else tr.original) * speed⟩,
            true)
        else
          (animPausePlay g a,
            some ⟨if a.playbackRate ≠ tr.applied then a.playbackRate
                else tr.original, tr.applied⟩,
            false) := by
  by_cases hdet : a.playbackRate ≠ tr.applied <;>
    simp [updateAnimation, hex, hdet]

theorem updateMediaElement_excluded_skip (speed : ℚ) (g : Bool)
    (m : MediaState) (tr? : Option TrackedMedia) (hex : m.excluded = true) :
    updateMediaElement speed g m tr? = (m, tr?, false) := by
  simp [updateMediaElement, hex]

theorem updateMediaElement_paused_no_write (speed : ℚ) (m : MediaState)
    (tr? : Option TrackedMedia) :
    (updateMediaElement speed true m tr?).2.2 = false := by
  cases tr? <;>
    simp only [updateMediaElement, updateMediaTail] <;>
    split_ifs <;> rfl

theorem updateMediaElement_none_unpaused_eq (speed : ℚ) (m : MediaState)
    (hex : m.excluded = false) :
    updateMediaElement speed false m none
      = if m.playbackRate ≠ m.playbackRate * speed
        then (⟨m.playbackRate * speed, m.paused, m.excluded⟩,
          some ⟨m.playbackRate, m.playbackRate * speed, false⟩, true)
        else (⟨m.playbackRate, m.paused, m.excluded⟩,
          some ⟨m.playbackRate, m.playbackRate * speed, false⟩, false) := by
  obtain ⟨mr, mp, mex⟩ := m
  have hex1 : mex = false := hex
  subst hex1
  by_cases hw : mr ≠ mr * speed <;>
    simp [updateMediaElement, updateMediaTail, hw]

theorem updateMediaElement_some_unpaused_eq (speed : ℚ) (m : MediaState)
    (tm : TrackedMedia) (hex : m.excluded = false) :
    updateMediaElement speed false m (some tm)
      = if m.playbackRate
            ≠ (if m.playbackRate ≠ tm.applied then m.playbackRate
                else tm.original) * speed
        then
          (⟨(if m.playbackRate ≠ tm.applied then m.playbackRate
              else tm.original) * speed,
            if tm.wasPaused then false else m.paused, m.excluded⟩,
            some ⟨if m.playbackRate ≠ tm.applied then m.playbackRate
                else tm.original,
              (if m.playbackRate ≠ tm.applied then m.playbackRate
                else tm.original) * speed, false⟩,
            true)
        else
          (⟨m.playbackRate, if tm.wasPaused then false else m.paused,
              m.excluded⟩,
            some ⟨if m.playbackRate ≠ tm.applied then m.playbackRate
                else tm.original, tm.applied, false⟩,
            false) := by
  obtain ⟨mr, mp, mex⟩ := m
  obtain ⟨o, ap, wp⟩ := tm
  have hex1 : mex = false := hex
  subst hex1
  by_cases hdet : mr ≠ ap
  · by_cases hwp : wp <;>
      by_cases hw : mr ≠ mr * speed <;>
        simp [updateMediaElement, updateMediaTail, hdet, hwp, hw]
  · by_cases hwp : wp <;>
      by_cases hw : mr ≠ o * speed <;>
        simp [updateMediaElement, updateMediaTail, hdet, hwp, hw]

theorem updateMediaExtElement_some_unpaused_eq (speed : ℚ) (m : MediaState)
    (tm : TrackedMedia) (hex : m.excluded = false) :
    updateMediaExtElement speed false m (some tm)
      = if m.playbackRate
            ≠ clampMediaRate ((if m.playbackRate ≠ tm.applied
                then m.playbackRate else tm.original) * speed)
        then
          (⟨clampMediaRate ((if m.playbackRate ≠ tm.applied
              then m.playbackRate else tm.original) * speed),
            if tm.wasPaused then false else m.paused, m.excluded⟩,
            some ⟨if m.playbackRate ≠ tm.applied then m.playbackRate
                else tm.original,
              clampMediaRate ((if m.playbackRate ≠ tm.applied
                then m.playbackRate else tm.original) * speed), false⟩,
            true)
        else
          (⟨m.playbackRate, if tm.wasPaused then false else m.paused,
              m.excluded⟩,
            some ⟨if m.playbackRate ≠ tm.applied then m.playbackRate
                else tm.original, tm.applied, false⟩,
            false) := by
  obtain ⟨mr, mp, mex⟩ := m
  obtain ⟨o, ap, wp⟩ := tm
  have hex1 : mex = false := hex
  subst hex1
  by_cases hdet : mr ≠ ap
  · by_cases hwp : wp <;>
      by_cases hw : mr ≠ clampMediaRate (mr * speed) <;>
        simp [updateMediaExtElement, updateMediaExtTail, hdet, hwp, hw]
  · by_cases hwp : wp <;>
      by_cases hw : mr ≠ clampMediaRate (o * speed) <;>
        simp [updateMediaExtElement, updateMediaExtTail, hdet, hwp, hw]

/-! ### Interference detection (C3) -/

/-- C3, counterexample.  A tracked media element whose rate was changed by
a third party while the engine is paused: `updateMediaElements` skips both
the re-inference of developer intent (`!== tracked.applied && !isPaused`)
and the rate write, so the next pass neither adopts the rate `3` as the
new developer rate nor writes `3 * 0`. -/
theorem paused_media_interference_not_detected :
    ¬ (((updateMediaElement 0 true ⟨3, false, false⟩
          (some ⟨1, 1, false⟩)).2.1.map TrackedMedia.original = some 3)
        ∧ (updateMediaElement 0 true ⟨3, false, false⟩
            (some ⟨1, 1, false⟩)).1.playbackRate = 3 * 0) := by
  decide

/-- C3, amended.  For a tracked, non-excluded animation, any reconciliation
pass that sees a current rate differing from the last applied value adopts
it as the new developer rate and ends with rate `r' * m`; for a tracked,
non-excluded media element the same holds only while the engine is
unpaused (while paused, media interference is neither detected nor
overwritten); and an entity whose rate equals the last applied value is
treated as unchanged — its stored developer rate is kept. -/
theorem third_party_rate_change_detected
    (speed : ℚ) (gPaused : Bool) (a b : AnimState) (ta tb : TrackedAnim)
    (m : MediaState) (tm : TrackedMedia)
    (hae : a.excluded = false) (hda : a.playbackRate ≠ ta.applied)
    (hme : m.excluded = false) (hdm : m.playbackRate ≠ tm.applied)
    (hbe : b.excluded = false) (heq : b.playbackRate = tb.applied) :
    (updateAnimation speed gPaused a (some ta)).2.1.map TrackedAnim.original
        = some a.playbackRate
      ∧ (updateAnimation speed gPaused a (some ta)).1.playbackRate
          = a.playbackRate * speed
      ∧ (updateMediaElement speed false m (some tm)).2.1.map TrackedMedia.original
          = some m.playbackRate
      ∧ (updateMediaElement speed false m (some tm)).1.playbackRate
          = m.playbackRate * speed
      ∧ (updateAnimation speed gPaused b (some tb)).2.1.map TrackedAnim.original
          = some tb.original := by
  refine ⟨?_, ?_, ?_, ?_, ?_⟩
  · rw [updateAnimation_some_eq speed gPaused a ta hae, if_pos hda]
    split_ifs <;> simp
  · rw [updateAnimation_some_eq speed gPaused a ta hae, if_pos hda]
    split_ifs with hw
    · simp [animPausePlay_playbackRate]
    · simpa [animPausePlay_playbackRate] using not_ne_iff.mp hw
  · rw [updateMediaElement_some_unpaused_eq speed m tm hme, if_pos hdm]
    split_ifs <;> simp
  · rw [updateMediaElement_some_unpaused_eq speed m tm hme, if_pos hdm]
    split_ifs with hw h1 <;>
      first
        | rfl
        | exact not_ne_iff.mp hw
  · rw [updateAnimation_some_eq speed gPaused b tb hbe,
      if_neg (not_ne_iff.mpr heq)]
    split_ifs <;> simp

theorem third_party_rate_change_detected_witness :
    (updateAnimation 3 false ⟨2, PlayState.running, false⟩
        (some ⟨1, 1⟩)).2.1.map TrackedAnim.original = some 2
      ∧ (updateAnimation 3 false ⟨2, PlayState.running, false⟩
          (some ⟨1, 1⟩)).1.playbackRate = 2 * 3
      ∧ (updateMediaElement 3 false ⟨2, false, false⟩
          (some ⟨1, 1, false⟩)).2.1.map TrackedMedia.original = some 2
      ∧ (updateMediaElement 3 false ⟨2, false, false⟩
          (some ⟨1, 1, false⟩)).1.playbackRate = 2 * 3
      ∧ (updateAnimation 3 false ⟨1, PlayState.running, false⟩
          (some ⟨1, 1⟩)).2.1.map TrackedAnim.original = some 1 :=
  third_party_rate_change_detected 3 false
    ⟨2, PlayState.running, false⟩ ⟨1, PlayState.running, false⟩
    ⟨1, 1⟩ ⟨1, 1⟩ ⟨2, false, false⟩ ⟨1, 1, false⟩
    rfl (by decide) rfl (by decide) rfl (by decide)

/-! ### Idempotent reconciliation (C4) -/

/-- Auxiliary step for C4: a second animation pass under the same speed
and pause flag, run on the output of a first pass with no intervening
external change, performs no playback-rate write. -/
theorem updateAnimation_second_pass_no_write
    (speed : ℚ) (g : Bool) (a : AnimState) (tr? : Option TrackedAnim) :
    (updateAnimation speed g (updateAnimation speed g a tr?).1
        (updateAnimation speed g a tr?).2.1).2.2 = false := by
  by_cases hex : a.excluded = true
  · have h1 := updateAnimation_excluded_skip speed g a tr? hex
    rw [h1]
    show (updateAnimation speed g a tr?).2.2 = false
    rw [h1]
  · have hex1 : a.excluded = false := by
      cases h : a.excluded
      · rfl
      · exact absurd h hex
    cases tr? with
    | none =>
        rw [updateAnimation_none_eq speed g a hex1]
        simp [updateAnimation_some_eq, hex1, animPausePlay_excluded,
          animPausePlay_playbackRate]
    | some tr =>
        rw [updateAnimation_some_eq speed g a tr hex1]
        by_cases hdet : a.playbackRate ≠ tr.applied
        · rw [if_pos hdet]
          by_cases hw : a.playbackRate ≠ a.playbackRate * speed
          · rw [if_pos hw]
            simp [updateAnimation_some_eq, hex1, animPausePlay_excluded,
              animPausePlay_playbackRate]
          · rw [if_neg hw]
            have h1 : a.playbackRate = a.playbackRate * speed :=
              not_ne_iff.mp hw
            simp [updateAnimation_some_eq, hex1, animPausePlay_excluded,
              animPausePlay_playbackRate, hdet, ← h1]
        · rw [if_neg hdet]
          by_cases hw : a.playbackRate ≠ tr.original * speed
          · rw [if_pos hw]
            simp [updateAnimation_some_eq, hex1, animPausePlay_excluded,
              animPausePlay_playbackRate]
          · rw [if_neg hw]
            simp [updateAnimation_some_eq, hex1, animPausePlay_excluded,
              animPausePlay_playbackRate, hdet, hw]

/-- Auxiliary step for C4: a second media pass under the same speed and
pause flag, run on the output of a first pass with no intervening external
change, performs no playback-rate write. -/
theorem updateMediaElement_second_pass_no_write
    (speed : ℚ) (g : Bool) (m : MediaState) (tr? : Option TrackedMedia) :
    (updateMediaElement speed g (updateMediaElement speed g m tr?).1
        (updateMediaElement speed g m tr?).2.1).2.2 = false := by
  cases g with
  | true => exact updateMediaElement_paused_no_write speed _ _
  | false =>
      by_cases hex : m.excluded = true
      · have h1 := updateMediaElement_excluded_skip speed false m tr? hex
        rw [h1]
        show (updateMediaElement speed false m tr?).2.2 = false
        rw [h1]
      · have hex1 : m.excluded = false := by
          cases h : m.excluded
          · rfl
          · exact absurd h hex
        cases tr? with
        | none =>
            rw [updateMediaElement_none_unpaused_eq speed m hex1]
            by_cases hw : m.playbackRate ≠ m.playbackRate * speed
            · rw [if_pos hw]
              simp [updateMediaElement_some_unpaused_eq, hex1]
            · rw [if_neg hw]
              have h1 : m.playbackRate = m.playbackRate * speed :=
                not_ne_iff.mp hw
              simp [updateMediaElement_some_unpaused_eq, hex1, ← h1]
        | some tm =>
            rw [updateMediaElement_some_unpaused_eq speed m tm hex1]
            by_cases hdet : m.playbackRate ≠ tm.applied
            · rw [if_pos hdet]
              by_cases hw : m.playbackRate ≠ m.playbackRate * speed
              · rw [if_pos hw]
                simp [updateMediaElement_some_unpaused_eq, hex1]
              · rw [if_neg hw]
                have h1 : m.playbackRate = m.playbackRate * speed :=
                  not_ne_iff.mp hw
                simp [updateMediaElement_some_unpaused_eq, hex1, hdet, ← h1]
            · rw [if_neg hdet]
              by_cases hw : m.playbackRate ≠ tm.original * speed
              · rw [if_pos hw]
                simp [updateMediaElement_some_unpaused_eq, hex1]
              · rw [if_neg hw]
                simp [updateMediaElement_some_unpaused_eq, hex1, hdet, hw]

/-- C4.  Reconciliation is idempotent with respect to playback-rate
writes: running a second pass (equivalently, reapplying an identical
SyncMessage) with an unchanged multiplier and pause flag, with no external
rate change in between, performs no playback-rate write on any animation
or media element, tracked or newly discovered, because a rate is written
back only when it differs from `developerRate * speedMultiplier`. -/
theorem sync_message_idempotent
    (speed : ℚ) (gPaused : Bool) (a : AnimState) (ta? : Option TrackedAnim)
    (m : MediaState) (tm? : Option TrackedMedia) :
    (updateAnimation speed gPaused (updateAnimation speed gPaused a ta?).1
        (updateAnimation speed gPaused a ta?).2.1).2.2 = false
      ∧ (updateMediaElement speed gPaused
          (updateMediaElement speed gPaused m tm?).1
          (updateMediaElement speed gPaused m tm?).2.1).2.2 = false :=
  ⟨updateAnimation_second_pass_no_write speed gPaused a ta?,
    updateMediaElement_second_pass_no_write speed gPaused m tm?⟩

/-! ### Play/pause reconciliation across passes (C6) -/

/-- C6, counterexample.  An animation paused by the page (not by the
engine) with developer rate `1`, multiplier `1`: the next unpaused pass
calls `anim.play()` on it — the library keeps no record of who paused an
animation, so the claim fails for animations. -/
theorem unpaused_pass_resumes_externally_paused_animation :
    ¬ ((updateAnimation 1 false ⟨1, PlayState.paused, false⟩
        (some ⟨1, 1⟩)).1.playState = PlayState.paused) := by
  rw [updateAnimation_some_eq 1 false ⟨1, PlayState.paused, false⟩ ⟨1, 1⟩ rfl]
  norm_num [animPausePlay]
  decide

/-- C6, amended.  Only media elements carry the engine-forced-pause flag:
an externally paused media element (tracked with `wasPaused = false`, or
newly discovered) is never resumed by an unpaused reconciliation pass, for
every multiplier; an externally paused animation, by contrast, is
unconditionally resumed by every unpaused pass. -/
theorem externally_paused_media_left_alone
    (speed : ℚ) (m : MediaState) (tm : TrackedMedia)
    (a : AnimState) (ta : TrackedAnim)
    (hmp : m.paused = true) (hmw : tm.wasPaused = false)
    (hap : a.playState = PlayState.paused) (hax : a.excluded = false) :
    (updateMediaElement speed false m (some tm)).1.paused = true
      ∧ (updateMediaElement speed false m none).1.paused = true
      ∧ (updateAnimation speed false a (some ta)).1.playState
          = PlayState.running := by
  refine ⟨?_, ?_, ?_⟩
  · by_cases hex : m.excluded = true
    · rw [updateMediaElement_excluded_skip speed false m (some tm) hex]
      exact hmp
    · have hex1 : m.excluded = false := by
        cases h : m.excluded
        · rfl
        · exact absurd h hex
      rw [updateMediaElement_some_unpaused_eq speed m tm hex1]
      split_ifs <;> simp_all
  · by_cases hex : m.excluded = true
    · rw [updateMediaElement_excluded_skip speed false m none hex]
      exact hmp
    · have hex1 : m.excluded = false := by
        cases h : m.excluded
        · rfl
        · exact absurd h hex
      rw [updateMediaElement_none_unpaused_eq speed m hex1]
      split_ifs <;> simp_all
  · rw [updateAnimation_some_eq speed false a ta hax]
    have hres : ∀ b : AnimState, b.playState = PlayState.paused →
        (animPausePlay false b).playState = PlayState.running := by
      intro b hb
      simp [animPausePlay, hb]
    split_ifs <;> exact hres _ (by simp [hap])

theorem externally_paused_media_left_alone_witness :
    (updateMediaElement 2 false ⟨1, true, false⟩
        (some ⟨1, 1, false⟩)).1.paused = true
      ∧ (updateMediaElement 2 false ⟨1, true, false⟩ none).1.paused = true
      ∧ (updateAnimation 2 false ⟨1, PlayState.paused, false⟩
          (some ⟨1, 1⟩)).1.playState = PlayState.running :=
  externally_paused_media_left_alone 2 ⟨1, true, false⟩ ⟨1, 1, false⟩
    ⟨1, PlayState.paused, false⟩ ⟨1, 1⟩ rfl rfl rfl rfl

/-! ### Media rate clamping (C9) -/

/-- C9, counterexample.  The library's `updateMediaElements` writes
`developerRate * multiplier` unclamped: with developer rate `1` and
multiplier `32` it writes `32`, not the clamped value `16` the claim
requires of every engine media write. -/
theorem library_media_write_not_clamped :
    ¬ ((updateMediaElement 32 false ⟨1, false, false⟩
        (some ⟨1, 1, false⟩)).1.playbackRate = clampMediaRate (1 * 32)) := by
  have h16 : clampMediaRate (1 * 32) = 16 := by
    unfold clampMediaRate
    rw [max_eq_right (by norm_num : (1 : ℚ)/16 ≤ 1 * 32),
      min_eq_left (by norm_num : (16 : ℚ) ≤ 1 * 32)]
  rw [updateMediaElement_some_unpaused_eq 32 ⟨1, false, false⟩
    ⟨1, 1, false⟩ rfl, h16]
  norm_num

/-- C9, amended.  In the extension dial content script every unpaused media
pass leaves the rate at `developerRate * multiplier` clamped silently to
the platform range `[0.0625, 16]`, so the resulting rate always lies in
that range; in the library the product is written unclamped (the platform
clamp is left to the browser), and animation rates are unclamped in both
variants apart from the `Infinity` completion fallback. -/
theorem extension_clamps_media_rate
    (speed : ℚ) (gPaused : Bool) (m : MediaState) (tm : TrackedMedia)
    (a : AnimState) (ta : TrackedAnim)
    (hme : m.excluded = false) (hae : a.excluded = false) :
    (updateMediaExtElement speed false m (some tm)).1.playbackRate
        = clampMediaRate
            ((if m.playbackRate ≠ tm.applied then m.playbackRate
              else tm.original) * speed)
      ∧ 1/16 ≤ (updateMediaExtElement speed false m (some tm)).1.playbackRate
      ∧ (updateMediaExtElement speed false m (some tm)).1.playbackRate ≤ 16
      ∧ (updateMediaElement speed false m (some tm)).1.playbackRate
          = (if m.playbackRate ≠ tm.applied then m.playbackRate
              else tm.original) * speed
      ∧ (updateAnimation speed gPaused a (some ta)).1.playbackRate
          = (if a.playbackRate ≠ ta.applied then a.playbackRate
              else ta.original) * speed := by
  have hclamp : (updateMediaExtElement speed false m (some tm)).1.playbackRate
      = clampMediaRate
          ((if m.playbackRate ≠ tm.applied then m.playbackRate
            else tm.original) * speed) := by
    by_cases hdet : m.playbackRate ≠ tm.applied
    · rw [updateMediaExtElement_some_unpaused_eq speed m tm hme, if_pos hdet]
      split_ifs with hw h1 <;>
        first
          | rfl
          | exact not_ne_iff.mp hw
    · rw [updateMediaExtElement_some_unpaused_eq speed m tm hme, if_neg hdet]
      split_ifs with hw h1 <;>
        first
          | rfl
          | exact not_ne_iff.mp hw
  refine ⟨hclamp, ?_, ?_, ?_, ?_⟩
  · rw [hclamp]
    unfold clampMediaRate
    exact le_min (by norm_num) (le_max_left _ _)
  · rw [hclamp]
    exact min_le_left _ _
  · by_cases hdet : m.playbackRate ≠ tm.applied
    · rw [updateMediaElement_some_unpaused_eq speed m tm hme, if_pos hdet]
      split_ifs with hw h1 <;>
        first
          | rfl
          | exact not_ne_iff.mp hw
    · rw [updateMediaElement_some_unpaused_eq speed m tm hme, if_neg hdet]
      split_ifs with hw h1 <;>
        first
          | rfl
          | exact not_ne_iff.mp hw
  · by_cases hdet : a.playbackRate ≠ ta.applied
    · rw [updateAnimation_some_eq speed gPaused a ta hae, if_pos hdet]
      split_ifs with hw
      · simp [animPausePlay_playbackRate]
      · simpa [animPausePlay_playbackRate] using not_ne_iff.mp hw
    · rw [updateAnimation_some_eq speed gPaused a ta hae, if_neg hdet]
      split_ifs with hw
      · simp [animPausePlay_playbackRate]
      · simpa [animPausePlay_playbackRate] using not_ne_iff.mp hw

theorem extension_clamps_media_rate_witness :
    (updateMediaExtElement 32 false ⟨1, false, false⟩
        (some ⟨1, 1, false⟩)).1.playbackRate = clampMediaRate (1 * 32)
      ∧ 1/16 ≤ (updateMediaExtElement 32 false ⟨1, false, false⟩
          (some ⟨1, 1, false⟩)).1.playbackRate
      ∧ (updateMediaExtElement 32 false ⟨1, false, false⟩
          (some ⟨1, 1, false⟩)).1.playbackRate ≤ 16
      ∧ (updateMediaElement 32 false ⟨1, false, false⟩
          (some ⟨1, 1, false⟩)).1.playbackRate = 1 * 32
      ∧ (updateAnimation 32 false ⟨1, PlayState.running, false⟩
          (some ⟨1, 1⟩)).1.playbackRate = 1 * 32 := by
  have h := extension_clamps_media_rate 32 false ⟨1, false, false⟩
    ⟨1, 1, false⟩ ⟨1, PlayState.running, false⟩ ⟨1, 1⟩ rfl rfl
  simpa using h

/-! ### Infinity-speed completion (C10) -/

/-- C10, counterexample.  A playing media element with duration exactly
`0` (a finite duration): the guard `media.duration && isFinite(media.duration)`
is falsy on `0`, so the Infinity pass neither seeks nor pauses it, although
the claim covers every media element with a finite duration. -/
theorem infinite_speed_skips_zero_duration_media :
    ¬ ((updateMediaInfinite ⟨0, MediaDuration.fin 0, false, false⟩).paused
        = true) := by
  decide

/-- C10, amended.  With multiplier `Infinity` the extension pass attempts
immediate completion of every non-excluded entity: an animation whose
`finish()` succeeds becomes finished; one whose `finish()` throws is given
the fastest platform-supported rate `16` instead, the failure being
contained in the per-entity step; and every media element with a finite
nonzero duration (the code's truthiness guard excludes duration `0`) is
sought to its end and paused. -/
theorem infinite_speed_completes_entities
    (af ag : AnimInfState) (m : MediaInfState) (d : ℚ)
    (hafx : af.excluded = false) (haf : af.canFinish = true)
    (hagx : ag.excluded = false) (hag : ag.canFinish = false)
    (hmx : m.excluded = false) (hd : m.duration = MediaDuration.fin d)
    (hd0 : d ≠ 0) :
    (updateAnimInfinite af).finished = true
      ∧ (updateAnimInfinite ag).playbackRate = 16
      ∧ (updateAnimInfinite ag).finished = ag.finished
      ∧ (updateMediaInfinite m).currentTime = d
      ∧ (updateMediaInfinite m).paused = true := by
  refine ⟨?_, ?_, ?_, ?_, ?_⟩ <;>
    simp [updateAnimInfinite, updateMediaInfinite, hafx, haf, hagx, hag,
      hmx, hd, hd0]

theorem infinite_speed_completes_entities_witness :
    (updateAnimInfinite ⟨false, true, 1, false⟩).finished = true
      ∧ (updateAnimInfinite ⟨false, false, 1, false⟩).playbackRate = 16
      ∧ (updateAnimInfinite ⟨false, false, 1, false⟩).finished = false
      ∧ (updateMediaInfinite ⟨0, MediaDuration.fin 5, false, false⟩).currentTime
          = 5
      ∧ (updateMediaInfinite ⟨0, MediaDuration.fin 5, false, false⟩).paused
          = true := by
  have h := infinite_speed_completes_entities ⟨false, true, 1, false⟩
    ⟨false, false, 1, false⟩ ⟨0, MediaDuration.fin 5, false, false⟩ 5
    rfl rfl rfl rfl rfl rfl (by decide)
  simpa using h

end Slowmo
